import Mathlib

/-!
Verification development for the actuator-disk turbine core of the
padeops-io package (its `turbine.py`).  The Python source is shallowly
embedded below:
pure numerical functions become functions over `ℝ`, the mutable `Turbine`
object becomes a `Turbine` record threaded explicitly through its methods,
and every runtime failure (AttributeError, ValueError, TypeError) becomes
an `Except` error value.  Namelist parameters are modelled as exact
rationals; the grid axes supplied by callers are rational as well, while
kernel values and rotated control points live in `ℝ` (the idealization of
the floating-point arithmetic of the source).
-/

set_option maxHeartbeats 1000000

/-- Python exceptions raised by the turbine module, one constructor per
distinct raise site / runtime failure mode. -/
inductive PyErr where
  /-- `AttributeError`: a missing required namelist argument in `Turbine.__init__`,
  or an access to an attribute (such as `self.yaw`) that was never set. -/
  | attributeError
  /-- `ValueError("Turbine.get_REWS(): No kernel found")`. -/
  | valueErrorNoKernel
  /-- `ValueError("Turbine.get_kernel(): no filterwidth found in the turbine input file")`. -/
  | valueErrorNoFilterwidth
  /-- `ValueError("Turbine.get_kernel(): No other ADM types are currently set up")`. -/
  | valueErrorADMType
  /-- `ValueError("Turbine.set_sort(): given variable does not exist for the turbine object")`. -/
  | valueErrorSortKey
  /-- `ValueError`: Python `min()` / `max()` applied to an empty sequence. -/
  | valueErrorEmptySeq
  /-- `TypeError`: arithmetic on an unsupported operand (e.g. a float times `None`). -/
  | typeError
deriving DecidableEq, Repr

mutual
/-- A value stored in a (possibly nested) namelist mapping. -/
inductive NmlVal where
  | num (q : ℚ)
  | boolv (b : Bool)
  | dict (entries : NmlEntries)
/-- The entries of a namelist mapping: an association sequence from keys to
values, possibly nested (a value may itself be a mapping). -/
inductive NmlEntries where
  | nil
  | cons (key : String) (val : NmlVal) (rest : NmlEntries)
end

/-- A namelist: a finite mapping from keys to values, possibly nested. -/
abbrev Nml := NmlEntries

/-- Build a namelist from an association list. -/
def Nml.ofList : List (String × NmlVal) → Nml
  | [] => .nil
  | (k, v) :: rest => .cons k v (Nml.ofList rest)

/-- Whether a namelist mapping has no entries. -/
def NmlEntries.isEmpty : NmlEntries → Bool
  | .nil => true
  | .cons _ _ _ => false

mutual
/-- Modelled from the spec: `key_search_r` (from `utils/io_utils.py`, which is
not in `src/`) performs a recursive key lookup over an arbitrarily nested
configuration mapping; a key may appear at any nesting depth and the first
match wins, searching depth-first. -/
def key_search_r : Nml → String → Option NmlVal
  | .nil, _ => none
  | .cons k v rest, key =>
    if k = key then some v
    else
      match keySearchVal v key with
      | some r => some r
      | none => key_search_r rest key
/-- Recursive key lookup inside a single namelist value: only a nested
mapping can contain further matches. -/
def keySearchVal : NmlVal → String → Option NmlVal
  | .dict d, key => key_search_r d key
  | _, _ => none
end

/-- Python truthiness of an optional namelist value (`None` is falsy, a number
is truthy iff nonzero, a bool is itself, a dict is truthy iff nonempty). -/
def truthy : Option NmlVal → Bool
  | none => false
  | some (.num q) => decide (q ≠ 0)
  | some (.boolv b) => b
  | some (.dict d) => !d.isEmpty

/-- A 3D array of reals with its shape, the embedding of a numpy
`(Nx, Ny, Nz)` float array. -/
structure Arr3 where
  nx : ℕ
  ny : ℕ
  nz : ℕ
  val : ℕ → ℕ → ℕ → ℝ

/-- `np.sum` over the whole array. -/
noncomputable def Arr3.total (a : Arr3) : ℝ :=
  ∑ i ∈ Finset.range a.nx, ∑ j ∈ Finset.range a.ny, ∑ k ∈ Finset.range a.nz, a.val i j k

namespace padeops

/-- Module-level `get_correction(CT, fwidth, D)` of `turbine.py`:
`M = 1 / (1.0 + CT / 2.0 * fwidth / np.sqrt(3 * np.pi) / D)` (the float
literals `1.0` and `2.0` are written as the equal reals `1` and `2`). -/
noncomputable def get_correction (CT fwidth D : ℝ) : ℝ :=
  1 / (1 + CT / 2 * fwidth / Real.sqrt (3 * Real.pi) / D)

/-- Module-level `get_REWS(ufield, kernel, M)` of `turbine.py`:
`np.sum(ufield * kernel) * M` (shapes assumed aligned, as in the source). -/
noncomputable def get_REWS (ufield kernel : Arr3) (M : ℝ) : ℝ :=
  Arr3.total ⟨ufield.nx, ufield.ny, ufield.nz,
    fun i j k => ufield.val i j k * kernel.val i j k⟩ * M

/-- Module-level `get_power(ud, D, rho, cpp)` of `turbine.py`:
`0.5 * rho * D**2 / 4 * np.pi * cpp * ud**3`. -/
noncomputable def get_power (ud D rho cpp : ℝ) : ℝ :=
  0.5 * rho * D ^ 2 / 4 * Real.pi * cpp * ud ^ 3

end padeops

/-- The state of a Python `Turbine` object: its `__dict__` after
`__init__`.  Optional namelist fields that were absent are `none` — the
corresponding attribute was never set on the object. -/
structure Turbine where
  verbose : Bool
  input_nml : Nml
  kernel : Option Arr3
  M : Option ℝ
  ud : Option ℝ
  xloc : ℚ
  yloc : ℚ
  zloc : ℚ
  ct : ℚ
  diam : ℚ
  yaw : Option ℚ
  tilt : Option ℚ
  filterwidth : Option ℚ
  usecorrection : Option NmlVal
  sort_by : String
  n : ℤ

/-- Look up a required namelist variable; `Turbine.__init__` raises
`AttributeError` when it is missing.  (The source stores whatever value is
found; a non-numeric value is rejected here, where Python would only fail
later at its first arithmetic use — no claim exercises that path.) -/
def reqNum (nml : Nml) (key : String) : Except PyErr ℚ :=
  match key_search_r nml key with
  | none => .error .attributeError
  | some (.num q) => .ok q
  | some _ => .error .typeError

/-- Look up an optional numeric namelist variable: absent keys simply leave
the attribute unset. -/
def optNum (nml : Nml) (key : String) : Except PyErr (Option ℚ) :=
  match key_search_r nml key with
  | none => .ok none
  | some (.num q) => .ok (some q)
  | some _ => .error .typeError

/-- `Turbine.__init__(nml, n, verbose, sort)`.  Required variables are
resolved by recursive key search (missing ones raise `AttributeError`),
optional ones are set only when found, and the `sort` argument is assigned
to `sort_by` without any validation. -/
def Turbine.init (nml : Nml) (n : ℤ) (verbose : Bool) (sort : String) :
    Except PyErr Turbine := do
  let xloc ← reqNum nml "xloc"
  let yloc ← reqNum nml "yloc"
  let zloc ← reqNum nml "zloc"
  let ct ← reqNum nml "ct"
  let diam ← reqNum nml "diam"
  let yaw ← optNum nml "yaw"
  let tilt ← optNum nml "tilt"
  let filterwidth ← optNum nml "filterwidth"
  let usecorrection := key_search_r nml "usecorrection"
  .ok { verbose := verbose, input_nml := nml, kernel := none, M := none, ud := none,
        xloc := xloc, yloc := yloc, zloc := zloc, ct := ct, diam := diam,
        yaw := yaw, tilt := tilt, filterwidth := filterwidth,
        usecorrection := usecorrection, sort_by := sort, n := n }

/-- The attribute names present in the object's `__dict__` (the membership
domain tested by `Turbine.set_sort`).  Optional namelist fields contribute a
name only when they were actually set. -/
def Turbine.attrs (t : Turbine) : List String :=
  ["verbose", "input_nml", "kernel", "M", "ud", "xloc", "yloc", "zloc", "ct", "diam"]
    ++ (if t.yaw.isSome then ["yaw"] else [])
    ++ (if t.tilt.isSome then ["tilt"] else [])
    ++ (if t.filterwidth.isSome then ["filterwidth"] else [])
    ++ (if t.usecorrection.isSome then ["usecorrection"] else [])
    ++ ["sort_by", "n", "pos"]

/-- `Turbine.set_sort(sort)`: assigns `sort_by` when `sort` names an existing
attribute and raises `ValueError` otherwise. -/
def Turbine.set_sort (t : Turbine) (sort : String) : Except PyErr Turbine :=
  if sort ∈ t.attrs then .ok { t with sort_by := sort }
  else .error .valueErrorSortKey

/-- `Turbine.get_correction(return_correction)`: re-reads `filterwidth` and
`usecorrection` from the input namelist; `M` is `1.0` when the filter width
is absent or `usecorrection` is falsy, and the Shapiro correction otherwise.
With `return_correction=True` it returns `M` leaving the object untouched;
with `return_correction=False` it stores `M` in `self.M` and returns `None`.
(The signature's default is `True`, although the docstring says `False`.) -/
noncomputable def Turbine.get_correction (t : Turbine) (return_correction : Bool) :
    Except PyErr (Option ℝ × Turbine) :=
  let fw := key_search_r t.input_nml "filterwidth"
  let uc := key_search_r t.input_nml "usecorrection"
  match (if fw.isNone || !truthy uc then Except.ok (1 : ℝ)
         else
           match fw with
           | some (.num q) => .ok (padeops.get_correction (t.ct : ℝ) (q : ℝ) (t.diam : ℝ))
           | _ => .error PyErr.typeError) with
  | .error e => .error e
  | .ok M => if return_correction then .ok (some M, t) else .ok (none, { t with M := some M })

/-- `Turbine.get_REWS(ufield, kernel)`: raises when neither a cached nor an
explicit kernel exists; otherwise calls `self.get_correction()` (with its
default `return_correction=True`, so the state is returned unchanged) and
then evaluates `get_REWS(ufield, self.kernel, self.M)` — note the source
passes `self.kernel` and `self.M`, never the `kernel` argument; multiplying
by a `None` kernel or `None` correction raises `TypeError`. -/
noncomputable def Turbine.get_REWS (t : Turbine) (ufield : Arr3) (kernel : Option Arr3) :
    Except PyErr (ℝ × Turbine) :=
  if t.kernel.isNone && kernel.isNone then .error .valueErrorNoKernel
  else
    match (if t.M.isNone then t.get_correction true else .ok (none, t)) with
    | .error e => .error e
    | .ok (_, t') =>
      match t'.kernel with
      | none => .error .typeError
      | some k =>
        match t'.M with
        | none => .error .typeError
        | some m => .ok (padeops.get_REWS ufield k m, t')

/-- The local lattice offsets `np.arange(-c, c + 1) * d` used to seed control
points at the grid's native spacing. -/
def latticeOffsets (c : ℤ) (d : ℚ) : List ℚ :=
  (List.range (2 * c + 1).toNat).map (fun (i : ℕ) => ((i : ℤ) - c) * d)

/-- The unrotated control points of `Turbine._get_ctrl_pts` (everything up to
the `_rotate_ctrl_pts` call): a 2D lattice in the disk plane at the grid
spacing, masked by `Y**2 + Z**2 < R**2` (strict), then offset to the disk
center.  (The source also computes `dx = x[1] - x[0]`, which it never uses.) -/
def Turbine.ctrl_pts_raw (t : Turbine) (_x y z : List ℚ) : List (ℚ × ℚ × ℚ) :=
  let dy := y.getD 1 0 - y.getD 0 0
  let dz := z.getD 1 0 - z.getD 0 0
  let R := t.diam / 2
  let y_per_R := Int.ceil (R / dy)
  let z_per_R := Int.ceil (R / dz)
  let ys := latticeOffsets y_per_R dy
  let zs := latticeOffsets z_per_R dz
  let pairs := ys.flatMap (fun yv => zs.map (fun zv => (yv, zv)))
  let masked := pairs.filter (fun p => p.1 ^ 2 + p.2 ^ 2 < R ^ 2)
  masked.map (fun p => (t.xloc, p.1 + t.yloc, p.2 + t.zloc))

/-- `Turbine._rotate_ctrl_pts`: accessing `self.yaw` or `self.tilt` when the
namelist never supplied them raises `AttributeError`; with `yaw == 0 and
tilt == 0` the points are returned unchanged (identity branch, no
trigonometry); otherwise yaw is applied first and then tilt, both about the
disk center, with the sign conventions of the source. -/
noncomputable def Turbine.rotate_ctrl_pts (t : Turbine) (pts : List (ℚ × ℚ × ℚ)) :
    Except PyErr (List (ℝ × ℝ × ℝ)) :=
  match t.yaw with
  | none => .error .attributeError
  | some yawDeg =>
    match t.tilt with
    | none => .error .attributeError
    | some tiltDeg =>
      if yawDeg = 0 ∧ tiltDeg = 0 then
        .ok (pts.map (fun p => ((p.1 : ℝ), (p.2.1 : ℝ), (p.2.2 : ℝ))))
      else
        let yaw := (yawDeg : ℝ) * Real.pi / 180
        let tilt := (tiltDeg : ℝ) * Real.pi / 180
        let x0 := (t.xloc : ℝ)
        let y0 := (t.yloc : ℝ)
        let z0 := (t.zloc : ℝ)
        .ok (pts.map (fun p =>
          let xc := (p.1 : ℝ)
          let yc := (p.2.1 : ℝ)
          let zc := (p.2.2 : ℝ)
          let xtmp := (xc - x0) * Real.cos yaw - (yc - y0) * Real.sin yaw + x0
          let ytmp := (xc - x0) * Real.sin yaw + (yc - y0) * Real.cos yaw + y0
          let ztmp := zc
          ((xtmp - x0) * Real.cos tilt + (ztmp - z0) * Real.sin tilt + x0,
           ytmp,
           -(xtmp - x0) * Real.sin tilt + (ztmp - z0) * Real.cos tilt + z0)))

/-- `Turbine._get_ctrl_pts(x, y, z)`: the unrotated lattice followed by the
rotation into world coordinates. -/
noncomputable def Turbine.get_ctrl_pts (t : Turbine) (x y z : List ℚ) :
    Except PyErr (List (ℝ × ℝ × ℝ)) :=
  t.rotate_ctrl_pts (t.ctrl_pts_raw x y z)

/-- Minimum of a list of reals (Python `min`; the empty case is guarded by
the caller, which raises first). -/
noncomputable def rmin : List ℝ → ℝ
  | [] => 0
  | h :: rest => rest.foldl min h

/-- Maximum of a list of reals (Python `max`). -/
noncomputable def rmax : List ℝ → ℝ
  | [] => 0
  | h :: rest => rest.foldl max h

/-- Modelled from the spec: half of `get_xids` (from `gridslice.py`, not in
`src/`), resolving the lower end of a coordinate interval to the nearest
covering axis index — the largest index whose coordinate is at most `lo`,
or `0` when the interval starts before the axis. -/
noncomputable def coverLo (ax : List ℚ) (lo : ℝ) : ℕ :=
  ax.countP (fun a => decide ((a : ℝ) ≤ lo)) - 1

/-- Modelled from the spec: the other half of `get_xids`, resolving the upper
end of a coordinate interval to the nearest covering axis index — the
smallest index whose coordinate is at least `hi`, or the last index when the
interval ends past the axis. -/
noncomputable def coverHi (ax : List ℚ) (hi : ℝ) : ℕ :=
  min (ax.countP (fun a => decide ((a : ℝ) < hi))) (ax.length - 1)

/-- The normalizing constant `C1 = (6 / np.pi / fwidth**2) ** 1.5` of
`Turbine.get_kernel`. -/
noncomputable def gaussC1 (fw : ℝ) : ℝ :=
  (6 / Real.pi / fw ^ 2) ^ (1.5 : ℝ)

/-- One Gaussian contribution
`C1 * np.exp(-6.0 / fwidth**2 * ((X - xc)**2 + (Y - yc)**2 + (Z - zc)**2))`
of a control point `p` at the grid node `(gx, gy, gz)`. -/
noncomputable def gaussBump (fw gx gy gz : ℝ) (p : ℝ × ℝ × ℝ) : ℝ :=
  gaussC1 fw * Real.exp (-6.0 / fw ^ 2 *
    ((gx - p.1) ^ 2 + (gy - p.2.1) ^ 2 + (gz - p.2.2) ^ 2))

/-- The accumulation stage of `Turbine.get_kernel`: a full-grid zero array
whose sub-box local to the control points (their bounding box expanded by
`buffer_fact * fwidth`, resolved to axis indices by `get_xids`) receives the
superposed Gaussian contributions of all control points. -/
noncomputable def synth_raw (x y z : List ℚ) (pts : List (ℝ × ℝ × ℝ)) (fw bf : ℝ) : Arr3 :=
  let buff := bf * fw
  let xlo := rmin (pts.map (fun p => p.1)) - buff
  let xhi := rmax (pts.map (fun p => p.1)) + buff
  let ylo := rmin (pts.map (fun p => p.2.1)) - buff
  let yhi := rmax (pts.map (fun p => p.2.1)) + buff
  let zlo := rmin (pts.map (fun p => p.2.2)) - buff
  let zhi := rmax (pts.map (fun p => p.2.2)) + buff
  ⟨x.length, y.length, z.length, fun i j k =>
    if coverLo x xlo ≤ i ∧ i ≤ coverHi x xhi ∧
       coverLo y ylo ≤ j ∧ j ≤ coverHi y yhi ∧
       coverLo z zlo ≤ k ∧ k ≤ coverHi z zhi then
      (pts.map (gaussBump fw ((x.getD i 0 : ℚ) : ℝ) ((y.getD j 0 : ℚ) : ℝ)
        ((z.getD k 0 : ℚ) : ℝ))).sum
    else 0⟩

/-- The numerical floor `kernel[kernel < 1e-10] = 0` applied to the
accumulated array. -/
noncomputable def synth_thresh (x y z : List ℚ) (pts : List (ℝ × ℝ × ℝ)) (fw bf : ℝ) : Arr3 :=
  let raw := synth_raw x y z pts fw bf
  ⟨raw.nx, raw.ny, raw.nz, fun i j k =>
    if raw.val i j k < 1 / 10 ^ 10 then 0 else raw.val i j k⟩

/-- The normalization stage of `Turbine.get_kernel`: divide by the total sum
(`normalize=True`) or by the total sum times the cell volume
(`normalize=False`). -/
noncomputable def synth_kernel (x y z : List ℚ) (pts : List (ℝ × ℝ × ℝ)) (fw bf : ℝ)
    (normalize : Bool) : Arr3 :=
  let th := synth_thresh x y z pts fw bf
  let S := th.total
  let dx := ((x.getD 1 0 - x.getD 0 0 : ℚ) : ℝ)
  let dy := ((y.getD 1 0 - y.getD 0 0 : ℚ) : ℝ)
  let dz := ((z.getD 1 0 - z.getD 0 0 : ℚ) : ℝ)
  ⟨th.nx, th.ny, th.nz, fun i j k =>
    th.val i j k / (if normalize then S else S * dx * dy * dz)⟩

/-- The observable outcome of one `Turbine.get_kernel` call: the value
returned to the caller (`None` unless `return_kernel`), the object state
afterwards, and whether the Gaussian synthesis was actually executed (the
call counter the spec's tests observe). -/
structure KRes where
  ret : Option Arr3
  st : Turbine
  synth : Bool

/-- `Turbine.get_kernel(x, y, z, ADM_type, fwidth, buffer_fact,
return_kernel, normalize, overwrite)`: an existing kernel short-circuits the
call unless `overwrite`; only `ADM_type == 5` is implemented; a missing
filter width is resolved from the namelist or raises; control points are
generated and rotated (which can raise `AttributeError`); `min()` over zero
control points would raise; and the synthesized kernel is returned when
`return_kernel` and stored into `self.kernel` otherwise. -/
noncomputable def Turbine.get_kernel (t : Turbine) (x y z : List ℚ) (ADM_type : ℤ)
    (fwidth : Option ℚ) (buffer_fact : ℚ) (return_kernel normalize overwrite : Bool) :
    Except PyErr KRes :=
  if t.kernel.isSome && !overwrite then
    .ok ⟨if return_kernel then t.kernel else none, t, false⟩
  else if ADM_type = 5 then
    match (match fwidth with
           | some f => Except.ok f
           | none =>
             match key_search_r t.input_nml "filterwidth" with
             | none => Except.error PyErr.valueErrorNoFilterwidth
             | some (.num q) => Except.ok q
             | some _ => Except.error PyErr.typeError) with
    | .error e => .error e
    | .ok fw =>
      match t.get_ctrl_pts x y z with
      | .error e => .error e
      | .ok pts =>
        if pts.isEmpty then .error .valueErrorEmptySeq
        else
          let kernel := synth_kernel x y z pts (fw : ℝ) (buffer_fact : ℝ) normalize
          if return_kernel then .ok ⟨some kernel, t, true⟩
          else .ok ⟨none, { t with kernel := some kernel }, true⟩
  else .error .valueErrorADMType

/-- A fully-populated demo namelist: turbine at the origin, `ct = 2`,
`diam = 1`, zero yaw and tilt, `filterwidth = 1`. -/
def nmlA : Nml := Nml.ofList
  [("xloc", .num 0), ("yloc", .num 0), ("zloc", .num 0), ("ct", .num 2),
   ("diam", .num 1), ("yaw", .num 0), ("tilt", .num 0), ("filterwidth", .num 1)]

/-- The `Turbine` built from `nmlA` (the value `Turbine.init` produces). -/
def tA : Turbine :=
  { verbose := false, input_nml := nmlA, kernel := none, M := none, ud := none,
    xloc := 0, yloc := 0, zloc := 0, ct := 2, diam := 1,
    yaw := some 0, tilt := some 0, filterwidth := some 1, usecorrection := none,
    sort_by := "xloc", n := -1 }

/-- A stand-in 1×1×1 array used as a cached kernel / velocity field. -/
def dummyArr : Arr3 := ⟨1, 1, 1, fun _ _ _ => 1⟩

/-- A namelist with a truthy `usecorrection` and `filterwidth = 2`. -/
def nmlB : Nml := Nml.ofList
  [("ct", .num 2), ("diam", .num 1), ("filterwidth", .num 2),
   ("usecorrection", .boolv true)]

/-- `tA` with `usecorrection = True` and `filterwidth = 2` in its namelist. -/
def tB : Turbine := { tA with input_nml := nmlB }

/-- C9: for all inputs the power function equals
`0.5 · rho · (π·D²/4) · cp_prime · disk_speed³`, and in particular
`get_power(ud=2, D=1, rho=1, cpp=2) = 2π`. -/
theorem claim9 :
    (∀ ud D rho cpp : ℝ,
      padeops.get_power ud D rho cpp = 0.5 * rho * (Real.pi * D ^ 2 / 4) * cpp * ud ^ 3) ∧
    padeops.get_power 2 1 1 2 = 2 * Real.pi := by
  constructor
  · intro ud D rho cpp
    unfold padeops.get_power
    ring
  · unfold padeops.get_power
    ring

/-- C8: `Turbine.get_correction` yields exactly `1.0` whenever the namelist
lacks a filter width or has a falsy `usecorrection`; otherwise it yields the
pure module function `get_correction(ct, filterwidth, diam)`, which equals
`1 / (1 + ct/2 · filterwidth / sqrt(3π) / diam)`. -/
theorem claim8 : ∀ t : Turbine,
    (((key_search_r t.input_nml "filterwidth").isNone = true ∨
        truthy (key_search_r t.input_nml "usecorrection") = false) →
      t.get_correction true = .ok (some 1, t)) ∧
    (∀ q : ℚ, key_search_r t.input_nml "filterwidth" = some (.num q) →
      truthy (key_search_r t.input_nml "usecorrection") = true →
      t.get_correction true =
        .ok (some (padeops.get_correction (t.ct : ℝ) (q : ℝ) (t.diam : ℝ)), t) ∧
      padeops.get_correction (t.ct : ℝ) (q : ℝ) (t.diam : ℝ) =
        1 / (1 + (t.ct : ℝ) / 2 * (q : ℝ) / Real.sqrt (3 * Real.pi) / (t.diam : ℝ))) := by
  intro t
  constructor
  · intro h
    unfold Turbine.get_correction
    rcases h with h | h <;> simp [h]
  · intro q hq huc
    constructor
    · unfold Turbine.get_correction
      simp [hq, huc]
    · unfold padeops.get_correction
      norm_num

/-- C8 witness: `tA` (no `usecorrection`) gets the fixed `1.0`; `tB`
(truthy `usecorrection`, `filterwidth = 2`) gets the formula. -/
theorem claim8_witness :
    tA.get_correction true = .ok (some 1, tA) ∧
    tB.get_correction true =
      .ok (some (padeops.get_correction (tB.ct : ℝ) ((2 : ℚ) : ℝ) (tB.diam : ℝ)), tB) :=
  ⟨(claim8 tA).1 (Or.inr rfl), ((claim8 tB).2 2 rfl rfl).1⟩

/-- The `Turbine` of claim C1: a kernel is cached, the correction factor is
not yet computed, and the namelist is empty (so the effective correction is
the fixed `1.0`). -/
def tC1 : Turbine := { tA with kernel := some dummyArr, input_nml := .nil }

/-- C1 (code bug): with a cached kernel and `self.M` unset,
`Turbine.get_REWS` raises `TypeError` instead of caching the correction and
returning the corrected weighted sum — `self.get_correction()` uses the
signature default `return_correction=True` (contradicting its docstring's
`Default: False`), so it returns `M` without storing it, and the subsequent
`np.sum(...) * None` fails.  The second conjunct exhibits the no-op:
`get_correction` with its default returns the factor and leaves the object
unchanged (`self.M` still `None`). -/
theorem claim1_bug :
    tC1.get_REWS dummyArr none = .error .typeError ∧
    tC1.get_correction true = .ok (some 1, tC1) :=
  ⟨rfl, rfl⟩

/-- The `Turbine` of claim C2: no cached kernel, correction not computed. -/
def tC2 : Turbine := { tA with input_nml := .nil }

/-- C2 (code bug): when no kernel is cached but an explicit kernel is
supplied, `Turbine.get_REWS` does not succeed with the supplied kernel —
the source passes `self.kernel` (which is `None`) to the module-level
`get_REWS`, so `ufield * None` raises `TypeError`.  When neither kernel
exists, the documented missing-kernel `ValueError` is raised. -/
theorem claim2_bug :
    tC2.get_REWS dummyArr (some dummyArr) = .error .typeError ∧
    tC2.get_REWS dummyArr none = .error .valueErrorNoKernel :=
  ⟨rfl, rfl⟩

/-- A namelist with only the five required fields. -/
def nml5 : Nml := Nml.ofList
  [("xloc", .num 1), ("yloc", .num 2), ("zloc", .num 3), ("ct", .num 2), ("diam", .num 1)]

/-- The `Turbine` that `Turbine.init nml5 (-1) false "zzz"` produces. -/
def t5 : Turbine :=
  { verbose := false, input_nml := nml5, kernel := none, M := none, ud := none,
    xloc := 1, yloc := 2, zloc := 3, ct := 2, diam := 1,
    yaw := none, tilt := none, filterwidth := none, usecorrection := none,
    sort_by := "zzz", n := -1 }

/-- C5 counterexample: constructing a `Turbine` with the invalid sort key
`"banana"` raises no error — construction succeeds and stores the key even
though it names no attribute of the object. -/
theorem claim5_counterexample :
    (Turbine.init nml5 (-1) false "banana").map Turbine.sort_by = .ok "banana" ∧
    (Turbine.init nml5 (-1) false "banana").map (fun t => decide ("banana" ∈ t.attrs)) =
      .ok false :=
  ⟨rfl, rfl⟩

/-- C5 (amended): only `Turbine.set_sort` validates the sort key, raising
`ValueError` exactly when the key names no existing attribute; the
constructor's `sort` argument is assigned to `sort_by` unchecked, so an
invalid key passed at construction raises nothing at configuration time. -/
theorem claim5_amended :
    (∀ (t : Turbine) (s : String), s ∉ t.attrs → t.set_sort s = .error .valueErrorSortKey) ∧
    (∀ (t : Turbine) (s : String), s ∈ t.attrs → t.set_sort s = .ok { t with sort_by := s }) ∧
    (∀ (nml : Nml) (n : ℤ) (v : Bool) (s : String) (t : Turbine),
      Turbine.init nml n v s = .ok t → t.sort_by = s) := by
  refine ⟨fun t s h => ?_, fun t s h => ?_, fun nml n v s t h => ?_⟩
  · unfold Turbine.set_sort
    simp [h]
  · unfold Turbine.set_sort
    simp [h]
  · simp only [Turbine.init, Bind.bind, Except.bind] at h
    repeat' split at h
    all_goals first
      | exact (Except.noConfusion h)
      | (injection h with h2; subst h2; rfl)

/-- C5 witness: `set_sort` rejects `"banana"` on `tA` and accepts `"yloc"`;
construction of `t5` with sort key `"zzz"` (not an attribute) stores it. -/
theorem claim5_witness :
    tA.set_sort "banana" = .error .valueErrorSortKey ∧
    tA.set_sort "yloc" = .ok { tA with sort_by := "yloc" } ∧
    t5.sort_by = "zzz" :=
  ⟨claim5_amended.1 tA "banana" (by decide),
   claim5_amended.2.1 tA "yloc" (by decide),
   claim5_amended.2.2 nml5 (-1) false "zzz" t5 rfl⟩

/-- Demo grid axis `[-2, -1, 0, 1, 2]` (unit spacing, strictly increasing,
covering the unit-diameter disk at the origin). -/
def axq : List ℚ := [-2, -1, 0, 1, 2]

/-- A namelist with only the required fields plus a filter width — no `yaw`
or `tilt` keys. -/
def nml4 : Nml := Nml.ofList
  [("xloc", .num 0), ("yloc", .num 0), ("zloc", .num 0), ("ct", .num 2),
   ("diam", .num 1), ("filterwidth", .num 1)]

/-- The `Turbine` that `Turbine.init nml4 (-1) false "xloc"` produces: note
`yaw` and `tilt` were never set. -/
def t4 : Turbine :=
  { verbose := false, input_nml := nml4, kernel := none, M := none, ud := none,
    xloc := 0, yloc := 0, zloc := 0, ct := 2, diam := 1,
    yaw := none, tilt := none, filterwidth := some 1, usecorrection := none,
    sort_by := "xloc", n := -1 }

/-- C4 (code bug): a configuration omitting `yaw` and `tilt` constructs
successfully (first conjunct), but the turbine does not behave as if
`yaw = tilt = 0`: the attributes are simply never set (middle conjuncts), so
control-point rotation inside `get_kernel` raises `AttributeError` at
`self.yaw` instead of returning the points unchanged. -/
theorem claim4_bug :
    Turbine.init nml4 (-1) false "xloc" = .ok t4 ∧
    t4.yaw = none ∧ t4.tilt = none ∧
    t4.get_kernel axq axq axq 5 none 3 true true false = .error .attributeError :=
  ⟨rfl, rfl, rfl, rfl⟩

/-- `tA` with a kernel already cached. -/
def tK : Turbine := { tA with kernel := some dummyArr }

/-- C3 counterexample: with a kernel already cached and `overwrite` not
requested, `get_kernel` with the unsupported `ADM_type = 3` does not raise —
the cache bypass returns first. -/
theorem claim3_counterexample :
    tK.get_kernel axq axq axq 3 none 3 false true false = .ok ⟨none, tK, false⟩ :=
  rfl

/-- C3 (amended): `get_kernel` with an `ADM_type` other than 5 raises the
unsupported-type `ValueError` exactly when the cache bypass does not apply,
i.e. when no kernel is cached or `overwrite` is requested; a cached kernel
with `overwrite=False` short-circuits before the type check. -/
theorem claim3_amended :
    ∀ (t : Turbine) (x y z : List ℚ) (a : ℤ) (fw : Option ℚ) (bf : ℚ) (rk nm ow : Bool),
    a ≠ 5 → (t.kernel.isSome && !ow) = false →
    t.get_kernel x y z a fw bf rk nm ow = .error .valueErrorADMType := by
  intro t x y z a fw bf rk nm ow ha hcond
  unfold Turbine.get_kernel
  simp [hcond, ha]

/-- C3 witness: an unsupported type on a turbine with no cached kernel
raises at call time. -/
theorem claim3_witness :
    ((3 : ℤ) ≠ 5) ∧
    tC2.get_kernel axq axq axq 3 none 3 false true false = .error .valueErrorADMType :=
  ⟨by decide,
   claim3_amended tC2 axq axq axq 3 none 3 false true false (by decide) rfl⟩

/-- The zero offset is always on the local lattice: `np.arange(-c, c+1)`
contains `0` whenever `c ≥ 1`. -/
lemma zero_mem_latticeOffsets (c : ℤ) (d : ℚ) (hc : 0 < c) :
    (0 : ℚ) ∈ latticeOffsets c d := by
  unfold latticeOffsets
  simp only [List.mem_map, List.mem_range]
  refine ⟨c.toNat, by omega, ?_⟩
  rw [Int.toNat_of_nonneg hc.le]
  simp

/-- The disk center always yields a control point: the `(0, 0)` lattice
offset passes the strict mask `Y² + Z² < R²` whenever `R > 0`. -/
lemma center_mem_ctrl_pts_raw (t : Turbine) (x y z : List ℚ)
    (hd : 0 < t.diam)
    (hdy : 0 < y.getD 1 0 - y.getD 0 0) (hdz : 0 < z.getD 1 0 - z.getD 0 0) :
    (t.xloc, (0 : ℚ) + t.yloc, (0 : ℚ) + t.zloc) ∈ t.ctrl_pts_raw x y z := by
  have hR : 0 < t.diam / 2 := by positivity
  unfold Turbine.ctrl_pts_raw
  refine List.mem_map.mpr ⟨((0 : ℚ), (0 : ℚ)), ?_, rfl⟩
  refine List.mem_filter.mpr ⟨?_, ?_⟩
  · refine List.mem_flatMap.mpr ⟨0, ?_, ?_⟩
    · exact zero_mem_latticeOffsets _ _ (Int.ceil_pos.mpr (div_pos hR hdy))
    · exact List.mem_map.mpr ⟨0, zero_mem_latticeOffsets _ _ (Int.ceil_pos.mpr (div_pos hR hdz)), rfl⟩
  · simp only [decide_eq_true_eq]
    have : (0 : ℚ) ^ 2 + 0 ^ 2 = 0 := by norm_num
    rw [this]
    positivity

/-- When `yaw` and `tilt` are both set, rotation succeeds and preserves the
number of control points (both branches are pointwise maps). -/
lemma rotate_ctrl_pts_ok (t : Turbine) (ψ τ : ℚ) (hyaw : t.yaw = some ψ)
    (htilt : t.tilt = some τ) (pts : List (ℚ × ℚ × ℚ)) :
    ∃ out, t.rotate_ctrl_pts pts = .ok out ∧ out.length = pts.length := by
  unfold Turbine.rotate_ctrl_pts
  rw [hyaw, htilt]
  dsimp only
  split
  · exact ⟨_, rfl, List.length_map _ _⟩
  · exact ⟨_, rfl, List.length_map _ _⟩

/-- Core of claim C10: for a positive-diameter turbine with set yaw/tilt and
positive grid spacings, `_get_ctrl_pts` succeeds with a nonempty point set. -/
lemma get_ctrl_pts_ne_nil (t : Turbine) (x y z : List ℚ) (ψ τ : ℚ)
    (hyaw : t.yaw = some ψ) (htilt : t.tilt = some τ) (hd : 0 < t.diam)
    (hdy : 0 < y.getD 1 0 - y.getD 0 0) (hdz : 0 < z.getD 1 0 - z.getD 0 0) :
    ∃ pts, t.get_ctrl_pts x y z = .ok pts ∧ pts ≠ [] := by
  obtain ⟨out, hok, hlen⟩ := rotate_ctrl_pts_ok t ψ τ hyaw htilt (t.ctrl_pts_raw x y z)
  refine ⟨out, hok, ?_⟩
  have hmem := center_mem_ctrl_pts_raw t x y z hd hdy hdz
  have hpos : 0 < (t.ctrl_pts_raw x y z).length := List.length_pos.mpr (List.ne_nil_of_mem hmem)
  exact List.ne_nil_of_length_pos (hlen ▸ hpos)

/-- C10: for every turbine with `diam > 0` (and its yaw/tilt attributes set)
and axes with positive spacings, `_get_ctrl_pts` produces a non-empty
control-point set — the `(0, 0)` disk-center offset always passes the strict
acceptance filter `0 < R²`, so the zero-control-point degenerate case is
unreachable. -/
theorem claim10 :
    ∀ (t : Turbine) (x y z : List ℚ) (ψ τ : ℚ),
    t.yaw = some ψ → t.tilt = some τ → 0 < t.diam →
    0 < y.getD 1 0 - y.getD 0 0 → 0 < z.getD 1 0 - z.getD 0 0 →
    ∃ pts, t.get_ctrl_pts x y z = .ok pts ∧ pts ≠ [] := by
  intro t x y z ψ τ hyaw htilt hd hdy hdz
  exact get_ctrl_pts_ne_nil t x y z ψ τ hyaw htilt hd hdy hdz

/-- C10 witness: the demo turbine `tA` (`diam = 1`, yaw/tilt present) on the
unit-spacing axes has a nonempty control-point set. -/
theorem claim10_witness :
    ∃ pts, tA.get_ctrl_pts axq axq axq = .ok pts ∧ pts ≠ [] := by
  refine claim10 tA axq axq axq 0 0 rfl rfl (by show (0:ℚ) < 1; norm_num) ?_ ?_ <;>
    · show (0 : ℚ) < -1 - -2
      norm_num

/-- On the demo turbine `tA` (no cached kernel) a `get_kernel` request with
`return_kernel=True` runs the synthesis and returns the kernel without
storing it: the state comes back unchanged. -/
lemma get_kernel_tA_synth :
    ∃ K, tA.get_kernel axq axq axq 5 (some 1) 3 true true false = .ok ⟨some K, tA, true⟩ := by
  obtain ⟨pts, hok, hne⟩ := get_ctrl_pts_ne_nil tA axq axq axq 0 0 rfl rfl
    (by show (0 : ℚ) < 1; norm_num)
    (by show (0 : ℚ) < -1 - -2; norm_num)
    (by show (0 : ℚ) < -1 - -2; norm_num)
  refine ⟨synth_kernel axq axq axq pts (((1 : ℚ)) : ℝ) (((3 : ℚ)) : ℝ) true, ?_⟩
  unfold Turbine.get_kernel
  have hk : tA.kernel = none := rfl
  rw [hok]
  simp [hk, List.isEmpty_iff, hne]

/-- C6 counterexample: two identical `get_kernel` requests with
`return_kernel=True` and no `overwrite` both execute the Gaussian synthesis
— with `return_kernel=True` the kernel is returned but never stored, so the
second request is not served from any cache. -/
theorem claim6_counterexample :
    (tA.get_kernel axq axq axq 5 (some 1) 3 true true false).map KRes.synth = .ok true ∧
    ((tA.get_kernel axq axq axq 5 (some 1) 3 true true false).bind
      (fun r => r.st.get_kernel axq axq axq 5 (some 1) 3 true true false)).map KRes.synth =
      .ok true := by
  obtain ⟨K, h⟩ := get_kernel_tA_synth
  constructor
  · rw [h]
    rfl
  · rw [h]
    show (tA.get_kernel axq axq axq 5 (some 1) 3 true true false).map KRes.synth = .ok true
    rw [h]
    rfl

/-- A cached kernel short-circuits `get_kernel` (no `overwrite`): the call
performs no synthesis, returns `None` (`return_kernel=False`), and leaves
the state unchanged. -/
lemma get_kernel_cache_hit (t : Turbine) (x y z : List ℚ) (a : ℤ) (fw : Option ℚ)
    (bf : ℚ) (nm : Bool) (K0 : Arr3) (hk : t.kernel = some K0) :
    t.get_kernel x y z a fw bf false nm false = .ok ⟨none, t, false⟩ := by
  unfold Turbine.get_kernel
  rw [hk]
  simp

/-- Inversion for a successful storing `get_kernel` call
(`return_kernel=False`, no `overwrite`): nothing is returned and the
resulting state has a kernel cached. -/
lemma get_kernel_inv (t : Turbine) (x y z : List ℚ) (a : ℤ) (fw : Option ℚ)
    (bf : ℚ) (nm : Bool) (r : KRes)
    (h : t.get_kernel x y z a fw bf false nm false = .ok r) :
    r.ret = none ∧ ∃ K, r.st.kernel = some K := by
  unfold Turbine.get_kernel at h
  cases hkern : t.kernel with
  | some K0 =>
    rw [hkern] at h
    simp only [Option.isSome_some, Bool.not_false, Bool.and_self, if_true,
      Bool.false_eq_true, if_false, Except.ok.injEq] at h
    refine ⟨?_, K0, ?_⟩
    · rw [← h]
    · rw [← h, hkern]
  | none =>
    rw [hkern] at h
    simp only [Option.isSome_none, Bool.false_and, Bool.false_eq_true, if_false] at h
    repeat' split at h
    all_goals first
      | exact (Except.noConfusion h)
      | (simp only [Except.ok.injEq] at h
         refine ⟨?_, ?_⟩
         · rw [← h]
         · exact ⟨_, by rw [← h]⟩)

/-- C6 (amended): for requests without `overwrite`, caching works only
through the storing mode: after a successful `get_kernel` call with
`return_kernel=False` the kernel is cached, and repeating the same request
performs no synthesis and is served from the cache (both calls returning
`None`).  With `return_kernel=True` the kernel is returned without being
stored, so a repeated request re-executes the synthesis (see the
counterexample); the values are nevertheless identical, the synthesis being
deterministic. -/
theorem claim6_amended :
    ∀ (t : Turbine) (x y z : List ℚ) (a : ℤ) (fw : Option ℚ) (bf : ℚ) (nm : Bool) (r : KRes),
    t.get_kernel x y z a fw bf false nm false = .ok r →
    r.ret = none ∧
    r.st.get_kernel x y z a fw bf false nm false = .ok ⟨none, r.st, false⟩ := by
  intro t x y z a fw bf nm r h
  obtain ⟨hret, K, hK⟩ := get_kernel_inv t x y z a fw bf nm r h
  exact ⟨hret, get_kernel_cache_hit r.st x y z a fw bf nm K hK⟩

/-- C6 witness: on the cached demo turbine `tK` the storing request
succeeds, and the repeated request is a synthesis-free cache hit. -/
theorem claim6_witness :
    tK.get_kernel axq axq axq 5 none 3 false true false = .ok ⟨none, tK, false⟩ ∧
    (⟨none, tK, false⟩ : KRes).ret = none ∧
    (⟨none, tK, false⟩ : KRes).st.get_kernel axq axq axq 5 none 3 false true false =
      .ok ⟨none, (⟨none, tK, false⟩ : KRes).st, false⟩ :=
  ⟨rfl, claim6_amended tK axq axq axq 5 none 3 true ⟨none, tK, false⟩ rfl⟩

/-- The namelist of the C7 counterexample: an (extremely large but)
resolvable `filterwidth = 10⁶`. -/
def nml7 : Nml := Nml.ofList
  [("xloc", .num 0), ("yloc", .num 0), ("zloc", .num 0), ("ct", .num 2),
   ("diam", .num 1), ("yaw", .num 0), ("tilt", .num 0), ("filterwidth", .num 1000000)]

/-- The C7 turbine: `diam = 1 > 0` at the origin, `yaw = tilt = 0`, with the
huge filter width resolvable from its namelist. -/
def t7 : Turbine := { tA with input_nml := nml7 }

/-- `⌈(diam/2) / dy⌉ = 1` for the demo geometry (`diam = 1`, unit spacing). -/
lemma ceil_half_t7 : (⌈t7.diam / 2 / (axq.getD 1 0 - axq.getD 0 0)⌉ : ℤ) = 1 := by
  show (⌈(1 : ℚ) / 2 / (-1 - -2)⌉ : ℤ) = 1
  rw [Int.ceil_eq_iff]
  norm_num

/-- The demo lattice offsets `np.arange(-1, 2) * 1` are `[-1, 0, 1]`. -/
lemma lattice_eval : latticeOffsets 1 (axq.getD 1 0 - axq.getD 0 0) = [-1, 0, 1] := by
  show latticeOffsets 1 (-1 - -2) = [-1, 0, 1]
  unfold latticeOffsets
  show List.map _ (List.range 3) = _
  simp [List.range_succ]
  norm_num

/-- For the demo geometry only the `(0, 0)` lattice offset passes the mask
`Y² + Z² < (1/2)²`: the unrotated control point set is the single disk
center. -/
lemma ctrl_pts_raw_t7 : t7.ctrl_pts_raw axq axq axq = [(0, 0, 0)] := by
  unfold Turbine.ctrl_pts_raw
  dsimp only
  rw [ceil_half_t7, lattice_eval]
  norm_num [List.flatMap_cons, List.filter_cons, show t7.diam = 1 from rfl,
    show t7.xloc = 0 from rfl, show t7.yloc = 0 from rfl, show t7.zloc = 0 from rfl]

/-- With `yaw = tilt = 0` the rotation is the identity: the control points of
`t7` are exactly the origin. -/
lemma get_ctrl_pts_t7 : t7.get_ctrl_pts axq axq axq = .ok [((0 : ℝ), 0, 0)] := by
  unfold Turbine.get_ctrl_pts Turbine.rotate_ctrl_pts
  rw [ctrl_pts_raw_t7]
  show (match (some (0 : ℚ) : Option ℚ) with
    | none => Except.error PyErr.attributeError
    | some yawDeg => _) = _
  norm_num

/-- Full evaluation of the C7 `get_kernel` call: the cache is empty, the
type is 5, the filter width resolves from the namelist to `10⁶`, there is a
single control point, and the synthesized kernel is returned. -/
lemma get_kernel_t7 :
    t7.get_kernel axq axq axq 5 none 3 true true false =
      .ok ⟨some (synth_kernel axq axq axq [((0 : ℝ), 0, 0)]
            ((1000000 : ℚ) : ℝ) ((3 : ℚ) : ℝ) true),
           t7, true⟩ := by
  unfold Turbine.get_kernel
  rw [get_ctrl_pts_t7]
  have hk : t7.kernel = none := rfl
  have hfw : key_search_r t7.input_nml "filterwidth" = some (.num 1000000) := rfl
  simp [hk, hfw]

/-- The Gaussian normalizing constant is nonnegative. -/
lemma gaussC1_nonneg (fw : ℝ) : 0 ≤ gaussC1 fw := by
  unfold gaussC1
  positivity

/-- Each Gaussian contribution is nonnegative. -/
lemma gaussBump_nonneg (fw gx gy gz : ℝ) (p : ℝ × ℝ × ℝ) : 0 ≤ gaussBump fw gx gy gz p := by
  unfold gaussBump
  exact mul_nonneg (gaussC1_nonneg fw) (Real.exp_pos _).le

/-- Each Gaussian contribution is at most `C1` (the exponential of a
nonpositive argument is at most one). -/
lemma gaussBump_le (fw gx gy gz : ℝ) (p : ℝ × ℝ × ℝ) :
    gaussBump fw gx gy gz p ≤ gaussC1 fw := by
  unfold gaussBump
  have hexp : Real.exp (-6.0 / fw ^ 2 *
      ((gx - p.1) ^ 2 + (gy - p.2.1) ^ 2 + (gz - p.2.2) ^ 2)) ≤ 1 := by
    rw [← Real.exp_zero]
    apply Real.exp_le_exp.mpr
    apply mul_nonpos_of_nonpos_of_nonneg
    · apply div_nonpos_of_nonpos_of_nonneg (by norm_num) (sq_nonneg fw)
    · positivity
  calc gaussC1 fw * Real.exp _ ≤ gaussC1 fw * 1 :=
        mul_le_mul_of_nonneg_left hexp (gaussC1_nonneg fw)
    _ = gaussC1 fw := mul_one _

/-- The accumulated (pre-floor) kernel is nonnegative everywhere. -/
lemma synth_raw_nonneg (x y z : List ℚ) (pts : List (ℝ × ℝ × ℝ)) (fw bf : ℝ) (i j k : ℕ) :
    0 ≤ (synth_raw x y z pts fw bf).val i j k := by
  unfold synth_raw
  dsimp only
  split
  · apply List.sum_nonneg
    intro a ha
    obtain ⟨p, _, rfl⟩ := List.mem_map.mp ha
    exact gaussBump_nonneg _ _ _ _ p
  · exact le_refl 0

/-- The accumulated kernel is bounded by (number of control points) · `C1`. -/
lemma synth_raw_le (x y z : List ℚ) (pts : List (ℝ × ℝ × ℝ)) (fw bf : ℝ) (i j k : ℕ) :
    (synth_raw x y z pts fw bf).val i j k ≤ (pts.length : ℝ) * gaussC1 fw := by
  unfold synth_raw
  dsimp only
  split
  · calc (pts.map _).sum ≤ (pts.map _).length • gaussC1 fw := by
          apply List.sum_le_card_nsmul
          intro a ha
          obtain ⟨p, _, rfl⟩ := List.mem_map.mp ha
          exact gaussBump_le _ _ _ _ p
      _ = (pts.length : ℝ) * gaussC1 fw := by
          rw [List.length_map, nsmul_eq_mul]
  · exact mul_nonneg (Nat.cast_nonneg _) (gaussC1_nonneg fw)

/-- When every possible accumulated value falls below the `1e-10` floor, the
whole kernel is floored to zero, its sum is zero, and the normalized kernel
is identically zero (`0 / 0 = 0`): its total is `0`, not `1`. -/
lemma synth_kernel_total_zero (x y z : List ℚ) (pts : List (ℝ × ℝ × ℝ)) (fw bf : ℝ)
    (h : (pts.length : ℝ) * gaussC1 fw < 1 / 10 ^ 10) :
    (synth_kernel x y z pts fw bf true).total = 0 := by
  have hth : ∀ i j k, (synth_thresh x y z pts fw bf).val i j k = 0 := by
    intro i j k
    unfold synth_thresh
    dsimp only
    rw [if_pos]
    exact lt_of_le_of_lt (synth_raw_le x y z pts fw bf i j k) h
  unfold synth_kernel Arr3.total
  dsimp only
  simp only [hth, zero_div, Finset.sum_const_zero]

/-- With `filterwidth = 10⁶` the normalizing constant (even times the single
control point) is far below the `1e-10` floor. -/
lemma gaussC1_small :
    (([((0 : ℝ), 0, 0)] : List (ℝ × ℝ × ℝ)).length : ℝ) * gaussC1 ((1000000 : ℚ) : ℝ) <
      1 / 10 ^ 10 := by
  have hcast : ((1000000 : ℚ) : ℝ) = 1000000 := by norm_num
  rw [hcast]
  have hlen : ((([((0 : ℝ), 0, 0)] : List (ℝ × ℝ × ℝ)).length : ℕ) : ℝ) = 1 := by norm_num
  rw [hlen, one_mul]
  unfold gaussC1
  have hb0 : (0 : ℝ) < 6 / Real.pi / 1000000 ^ 2 := by positivity
  have h6 : 6 / Real.pi < 2 := by
    rw [div_lt_iff₀ Real.pi_pos]
    nlinarith [Real.pi_gt_three]
  have hb1 : 6 / Real.pi / 1000000 ^ 2 ≤ 1 := by
    rw [div_le_one (by positivity)]
    nlinarith [Real.pi_gt_three]
  calc (6 / Real.pi / 1000000 ^ 2) ^ (1.5 : ℝ)
      ≤ (6 / Real.pi / 1000000 ^ 2) ^ (1 : ℝ) :=
        Real.rpow_le_rpow_of_exponent_ge hb0 hb1 (by norm_num)
    _ = 6 / Real.pi / 1000000 ^ 2 := Real.rpow_one _
    _ < 2 / 1000000 ^ 2 := by
        exact (div_lt_div_iff_of_pos_right (by positivity)).mpr h6
    _ < 1 / 10 ^ 10 := by norm_num

/-- C7 counterexample: the turbine `t7` has `diam = 1 > 0`, a resolvable
`filterwidth` (`10⁶`) and strictly increasing axes covering the disk, yet
the kernel produced by `get_kernel` with `normalize=True` sums to `0`, not
`1`: every Gaussian value falls below the `1e-10` floor, so the kernel is
floored to all zeros before the normalization divides by its (zero) sum. -/
theorem claim7_counterexample :
    (t7.get_kernel axq axq axq 5 none 3 true true false).map (fun r => r.ret.map Arr3.total) =
      .ok (some 0) ∧ (0 : ℝ) ≠ 1 := by
  refine ⟨?_, by norm_num⟩
  rw [get_kernel_t7]
  have hz := synth_kernel_total_zero axq axq axq [((0 : ℝ), 0, 0)]
    ((1000000 : ℚ) : ℝ) ((3 : ℚ) : ℝ) gaussC1_small
  show Except.ok (some ((synth_kernel axq axq axq [((0 : ℝ), 0, 0)]
    ((1000000 : ℚ) : ℝ) ((3 : ℚ) : ℝ) true).total)) = Except.ok (some 0)
  rw [hz]

/-- A storing-free successful `get_kernel` call on an empty cache produces
exactly `synth_kernel` of its rotated control points — the bridge between
the method and the synthesis stages. -/
lemma get_kernel_synth_eq (t : Turbine) (x y z : List ℚ) (fwq bf : ℚ) (nm : Bool)
    (pts : List (ℝ × ℝ × ℝ)) (hk : t.kernel = none)
    (hok : t.get_ctrl_pts x y z = .ok pts) (hne : pts ≠ []) :
    t.get_kernel x y z 5 (some fwq) bf true nm false =
      .ok ⟨some (synth_kernel x y z pts (fwq : ℝ) (bf : ℝ) nm), t, true⟩ := by
  unfold Turbine.get_kernel
  rw [hok]
  simp [hk, List.isEmpty_iff, hne]

/-- C7 (amended): the kernel produced by `get_kernel` with `normalize=True`
is `synth_kernel` of the control points (second conjunct), and such a kernel
sums to exactly `1` in real arithmetic **provided** the floored accumulated
field has nonzero total (first conjunct) — with an extreme filter width every
accumulated value falls below the `1e-10` floor and the normalized kernel is
identically zero instead (see the counterexample). -/
theorem claim7_amended :
    (∀ (x y z : List ℚ) (pts : List (ℝ × ℝ × ℝ)) (fw bf : ℝ),
      (synth_thresh x y z pts fw bf).total ≠ 0 →
      (synth_kernel x y z pts fw bf true).total = 1) ∧
    (∀ (t : Turbine) (x y z : List ℚ) (fwq bf : ℚ) (pts : List (ℝ × ℝ × ℝ)),
      t.kernel = none → t.get_ctrl_pts x y z = .ok pts → pts ≠ [] →
      t.get_kernel x y z 5 (some fwq) bf true true false =
        .ok ⟨some (synth_kernel x y z pts (fwq : ℝ) (bf : ℝ) true), t, true⟩) := by
  constructor
  · intro x y z pts fw bf hS
    unfold synth_kernel
    unfold Arr3.total at hS ⊢
    dsimp only
    simp only [if_true, ← Finset.sum_div]
    exact div_self hS
  · intro t x y z fwq bf pts hk hok hne
    exact get_kernel_synth_eq t x y z fwq bf true pts hk hok hne

/-- The floored kernel is nonnegative everywhere. -/
lemma synth_thresh_nonneg (x y z : List ℚ) (pts : List (ℝ × ℝ × ℝ)) (fw bf : ℝ) (i j k : ℕ) :
    0 ≤ (synth_thresh x y z pts fw bf).val i j k := by
  unfold synth_thresh
  dsimp only
  split
  · exact le_refl 0
  · exact synth_raw_nonneg x y z pts fw bf i j k

/-- A single in-range entry of a nonnegative array bounds its total from
below. -/
lemma Arr3.le_total (a : Arr3) (i j k : ℕ) (hi : i < a.nx) (hj : j < a.ny) (hk : k < a.nz)
    (hnn : ∀ i' j' k', 0 ≤ a.val i' j' k') : a.val i j k ≤ a.total := by
  unfold Arr3.total
  have h1 : a.val i j k ≤ ∑ k' ∈ Finset.range a.nz, a.val i j k' :=
    Finset.single_le_sum (fun k' _ => hnn i j k') (Finset.mem_range.mpr hk)
  have h2 : (∑ k' ∈ Finset.range a.nz, a.val i j k') ≤
      ∑ j' ∈ Finset.range a.ny, ∑ k' ∈ Finset.range a.nz, a.val i j' k' :=
    Finset.single_le_sum (fun j' _ => Finset.sum_nonneg fun k' _ => hnn i j' k')
      (Finset.mem_range.mpr hj)
  have h3 : (∑ j' ∈ Finset.range a.ny, ∑ k' ∈ Finset.range a.nz, a.val i j' k') ≤
      ∑ i' ∈ Finset.range a.nx, ∑ j' ∈ Finset.range a.ny, ∑ k' ∈ Finset.range a.nz,
        a.val i' j' k' :=
    Finset.single_le_sum
      (fun i' _ => Finset.sum_nonneg fun j' _ => Finset.sum_nonneg fun k' _ => hnn i' j' k')
      (Finset.mem_range.mpr hi)
  linarith

/-- On the demo axis, a lower bound below the whole axis resolves to index 0. -/
lemma coverLo_axq (lo : ℝ) (h : lo < -2) : coverLo axq lo = 0 := by
  unfold coverLo
  have e2 : ¬ ((-2 : ℝ) ≤ lo) := by linarith
  have e1 : ¬ ((-1 : ℝ) ≤ lo) := by linarith
  have e0 : ¬ ((0 : ℝ) ≤ lo) := by linarith
  have ep1 : ¬ ((1 : ℝ) ≤ lo) := by linarith
  have ep2 : ¬ ((2 : ℝ) ≤ lo) := by linarith
  simp [axq, List.countP_cons, List.countP_nil, e2, e1, e0, ep1, ep2]

/-- On the demo axis, an upper bound above the whole axis resolves to the
last index. -/
lemma coverHi_axq (hi : ℝ) (h : 2 < hi) : coverHi axq hi = 4 := by
  unfold coverHi
  have e2 : ((-2 : ℝ) < hi) := by linarith
  have e1 : ((-1 : ℝ) < hi) := by linarith
  have e0 : ((0 : ℝ) < hi) := by linarith
  have ep1 : ((1 : ℝ) < hi) := by linarith
  have ep2 : ((2 : ℝ) < hi) := by linarith
  simp [axq, List.countP_cons, List.countP_nil, e2, e1, e0, ep1, ep2]

/-- At the grid node coinciding with the single control point the
accumulated value is exactly `C1` (the Gaussian at distance zero). -/
lemma raw222 : (synth_raw axq axq axq [((0 : ℝ), 0, 0)] 1 3).val 2 2 2 = gaussC1 1 := by
  unfold synth_raw
  dsimp only
  have hc1 : coverLo axq (rmin (([((0 : ℝ), 0, 0)] : List (ℝ × ℝ × ℝ)).map (fun p => p.1)) - 3 * 1) = 0 :=
    coverLo_axq _ (by show (0 : ℝ) - 3 * 1 < -2; norm_num)
  have hc2 : coverHi axq (rmax (([((0 : ℝ), 0, 0)] : List (ℝ × ℝ × ℝ)).map (fun p => p.1)) + 3 * 1) = 4 :=
    coverHi_axq _ (by show (2 : ℝ) < 0 + 3 * 1; norm_num)
  have hc3 : coverLo axq (rmin (([((0 : ℝ), 0, 0)] : List (ℝ × ℝ × ℝ)).map (fun p => p.2.1)) - 3 * 1) = 0 :=
    coverLo_axq _ (by show (0 : ℝ) - 3 * 1 < -2; norm_num)
  have hc4 : coverHi axq (rmax (([((0 : ℝ), 0, 0)] : List (ℝ × ℝ × ℝ)).map (fun p => p.2.1)) + 3 * 1) = 4 :=
    coverHi_axq _ (by show (2 : ℝ) < 0 + 3 * 1; norm_num)
  have hc5 : coverLo axq (rmin (([((0 : ℝ), 0, 0)] : List (ℝ × ℝ × ℝ)).map (fun p => p.2.2)) - 3 * 1) = 0 :=
    coverLo_axq _ (by show (0 : ℝ) - 3 * 1 < -2; norm_num)
  have hc6 : coverHi axq (rmax (([((0 : ℝ), 0, 0)] : List (ℝ × ℝ × ℝ)).map (fun p => p.2.2)) + 3 * 1) = 4 :=
    coverHi_axq _ (by show (2 : ℝ) < 0 + 3 * 1; norm_num)
  have hgd : ((axq.getD 2 0 : ℚ) : ℝ) = 0 := by
    show ((0 : ℚ) : ℝ) = 0
    norm_num
  rw [if_pos]
  · simp only [List.map_cons, List.map_nil, List.sum_cons, List.sum_nil, hgd]
    unfold gaussBump
    norm_num [Real.exp_zero]
  · rw [hc1, hc2, hc3, hc4, hc5, hc6]
    norm_num

/-- `C1 ≥ 1` for `filterwidth = 1` (since `6/π > 1`). -/
lemma one_le_gaussC1_one : (1 : ℝ) ≤ gaussC1 1 := by
  unfold gaussC1
  have hb : (1 : ℝ) ≤ 6 / Real.pi / 1 ^ 2 := by
    rw [one_pow, div_one, le_div_iff₀ Real.pi_pos]
    nlinarith [Real.pi_le_four]
  calc (1 : ℝ) = (6 / Real.pi / 1 ^ 2) ^ (0 : ℝ) := (Real.rpow_zero _).symm
    _ ≤ (6 / Real.pi / 1 ^ 2) ^ (1.5 : ℝ) :=
      Real.rpow_le_rpow_of_exponent_le hb (by norm_num)

/-- The floored total of the demo configuration is positive: the node at the
control point survives the floor with value `C1 ≥ 1`, and all entries are
nonnegative. -/
lemma S7_pos : 0 < (synth_thresh axq axq axq [((0 : ℝ), 0, 0)] 1 3).total := by
  have h222 : (synth_thresh axq axq axq [((0 : ℝ), 0, 0)] 1 3).val 2 2 2 = gaussC1 1 := by
    unfold synth_thresh
    dsimp only
    rw [raw222, if_neg]
    exact not_lt.mpr (le_trans (by norm_num) one_le_gaussC1_one)
  have hle : (synth_thresh axq axq axq [((0 : ℝ), 0, 0)] 1 3).val 2 2 2 ≤
      (synth_thresh axq axq axq [((0 : ℝ), 0, 0)] 1 3).total := by
    apply Arr3.le_total
    · show (2 : ℕ) < 5
      norm_num
    · show (2 : ℕ) < 5
      norm_num
    · show (2 : ℕ) < 5
      norm_num
    · exact synth_thresh_nonneg axq axq axq [((0 : ℝ), 0, 0)] 1 3
  calc (0 : ℝ) < 1 := one_pos
    _ ≤ gaussC1 1 := one_le_gaussC1_one
    _ = (synth_thresh axq axq axq [((0 : ℝ), 0, 0)] 1 3).val 2 2 2 := h222.symm
    _ ≤ _ := hle

/-- C7 witness: a unit filter width on the demo grid has nonzero floored
total, its normalized kernel sums to exactly `1`, and the `get_kernel`
bridge holds at the concrete turbine `t7`. -/
theorem claim7_witness :
    (synth_thresh axq axq axq [((0 : ℝ), 0, 0)] 1 3).total ≠ 0 ∧
    (synth_kernel axq axq axq [((0 : ℝ), 0, 0)] 1 3 true).total = 1 ∧
    t7.get_kernel axq axq axq 5 (some 1000000) 3 true true false =
      .ok ⟨some (synth_kernel axq axq axq [((0 : ℝ), 0, 0)] ((1000000 : ℚ) : ℝ) ((3 : ℚ) : ℝ) true),
           t7, true⟩ :=
  ⟨S7_pos.ne', claim7_amended.1 axq axq axq [((0 : ℝ), 0, 0)] 1 3 S7_pos.ne',
   claim7_amended.2 t7 axq axq axq 1000000 3 [((0 : ℝ), 0, 0)] rfl get_ctrl_pts_t7
     (List.cons_ne_nil _ _)⟩
